import Mathlib

/-!
Verification of the form2chat conversational form engine.

The Lean definitions below are a shallow embedding of `src/lib/engine.ts`
(the engine imported by every API route under `src/app`).  JavaScript
values that can appear in the persisted `answers_json` document are
modelled by the inductive type `Jv`; JS objects are association lists in
insertion order, matching JS property-enumeration order; JS numbers are
modelled by `JsNum` (a rational, or one of the non-finite values).  Host
functions of the JS runtime (`Number(..)`, `Date.parse`, string trimming
and lowercasing, `JSON.stringify`) are modelled by executable Lean
functions that follow the ECMA-262 behaviour on the input shapes this
development exercises; each model carries a doc comment stating its scope.
-/

namespace Form2Chat

/-- A JavaScript number: a finite rational, an infinity, or NaN.
(The engine never performs arithmetic on stored numbers, so modelling
finite doubles as rationals is faithful for every operation it does
perform: parsing, comparison with `NaN`, and storage.) -/
inductive JsNum where
  | fin (q : ℚ)
  | inf
  | negInf
  | nan
  deriving DecidableEq

/-- A JavaScript value as it can occur in the engine state / stored JSON:
`null`, booleans, numbers, strings, arrays, and plain objects.  Objects
are association lists in property insertion order (JS enumeration order);
keys are unique in every value the runtime actually produces. -/
inductive Jv where
  | null
  | bool (b : Bool)
  | num (n : JsNum)
  | str (s : String)
  | arr (elems : List Jv)
  | obj (entries : List (String × Jv))

/-- A JS plain object: association list of properties in insertion order. -/
abbrev JRec := List (String × Jv)

/-- Property read `o[k]` on a plain object: the value of the first (only)
entry with key `k`, or `none` for JS `undefined`. -/
def getKey (r : JRec) (k : String) : Option Jv :=
  (r.find? (fun e => e.1 = k)).map (·.2)

/-- Property write `o[k] = v`: update in place when the key exists,
otherwise append (JS keeps first-insertion order for existing keys). -/
def setKey (r : JRec) (k : String) (v : Jv) : JRec :=
  match r with
  | [] => [(k, v)]
  | (k', v') :: rest => if k' = k then (k, v) :: rest else (k', v') :: setKey rest k v

/-- Property delete `delete o[k]`. -/
def delKey (r : JRec) (k : String) : JRec :=
  r.filter (fun e => e.1 ≠ k)

/-- JS truthiness of a value. -/
def jvTruthy : Jv → Bool
  | .null => false
  | .bool b => b
  | .num (.fin q) => q ≠ 0
  | .num .nan => false
  | .num _ => true
  | .str s => s ≠ ""
  | .arr _ => true
  | .obj _ => true

/-- JS truthiness of a possibly-`undefined` value (`undefined` is falsy). -/
def optTruthy : Option Jv → Bool
  | none => false
  | some v => jvTruthy v

/-- Property access `o.k` on an arbitrary value, where `o` is known not to
be `null`/`undefined` (those throw): plain objects look the key up;
arrays, boxed primitives have no own property named `__refs`/`__draft`,
so the access yields `undefined`. -/
def jvGetProp (o : Jv) (k : String) : Option Jv :=
  match o with
  | .obj r => getKey r k
  | _ => none

/-- `typeof o === "object"` (true for plain objects, arrays and `null`). -/
def jvTypeofObject : Jv → Bool
  | .obj _ => true
  | .arr _ => true
  | .null => true
  | _ => false

/-- Object spread `{...v}` of an arbitrary value: objects copy their
entries; arrays expose their index-keyed elements; strings expose their
index-keyed characters; `null` and the remaining primitives contribute no
own enumerable properties. -/
def jsSpread : Jv → JRec
  | .obj r => r
  | .arr xs => (xs.enum.map (fun e => (toString e.1, e.2)))
  | .str s => (s.toList.enum.map (fun e => (toString e.1, Jv.str (String.mk [e.2]))))
  | _ => []

/-- ASCII whitespace, the only whitespace this development feeds to the
JS trimming and `ToNumber` models. -/
def isWs (c : Char) : Bool :=
  c = ' ' || c = '\t' || c = '\n' || c = '\r'

/-- Model of `String.prototype.trim` (restricted to ASCII whitespace). -/
def jsTrim (s : String) : String :=
  String.mk (((s.toList.dropWhile isWs).reverse.dropWhile isWs).reverse)

/-- Model of `String.prototype.toLowerCase` (ASCII letters). -/
def jsToLower (s : String) : String :=
  String.mk (s.toList.map Char.toLower)

/-- Digits of a character list interpreted in base 10 (all must be digits). -/
def digitsVal : List Char → Option Nat
  | [] => none
  | cs =>
    if cs.all (fun c => c.isDigit) then
      some (cs.foldl (fun n c => n * 10 + (c.toNat - '0'.toNat)) 0)
    else none

/-- Decimal fraction value of a digit list, e.g. `['2','5'] ↦ 1/4`. -/
def fracVal (cs : List Char) : Option ℚ :=
  (digitsVal cs).map (fun n => (n : ℚ) / (10 : ℚ) ^ cs.length)

/-- Unsigned decimal literal `digits`, `digits.digits`, `digits.` or
`.digits` as a rational. -/
def parseUnsignedDec (cs : List Char) : Option ℚ :=
  match cs.splitOn '.' with
  | [whole] => (digitsVal whole).map (fun n => (n : ℚ))
  | [whole, frac] =>
    match whole, frac with
    | [], [] => none
    | [], f => fracVal f
    | w, [] => (digitsVal w).map (fun n => (n : ℚ))
    | w, f =>
      match digitsVal w, fracVal f with
      | some n, some q => some ((n : ℚ) + q)
      | _, _ => none
  | _ => none

/-- Signed decimal literal. -/
def parseSignedDec (cs : List Char) : Option ℚ :=
  match cs with
  | '+' :: rest => parseUnsignedDec rest
  | '-' :: rest => (parseUnsignedDec rest).map Neg.neg
  | _ => parseUnsignedDec cs

/-- Model of ECMA-262 `ToNumber` on strings (the JS `Number(raw)` /
implicit numeric conversion used by the engine), restricted to: the
whitespace-trimmed empty string (`0`), the `Infinity` literals, and
signed decimal literals without an exponent.  Every other string maps to
`NaN`, as in ECMA-262 for strings outside the numeric grammar. -/
def jsNumber (s : String) : JsNum :=
  let t := jsTrim s
  if t = "" then .fin 0
  else if t = "Infinity" || t = "+Infinity" then .inf
  else if t = "-Infinity" then .negInf
  else
    match parseSignedDec t.toList with
    | some q => .fin q
    | none => .nan

/-- `Number.isNaN` on a JS number. -/
def jsIsNaN : JsNum → Bool
  | .nan => true
  | _ => false

/-- A calendar date as the engine observes it. -/
structure YMD where
  year : Nat
  month : Nat
  day : Nat
  deriving DecidableEq

/-- Left-pad a numeral string with zeros to width `w`. -/
def padNum (w n : Nat) : String :=
  let s := toString n
  String.mk (List.replicate (w - s.length) '0') ++ s

/-- `toISOString().slice(0, 10)` of a date: canonical `YYYY-MM-DD`. -/
def toIsoDate (d : YMD) : String :=
  padNum 4 d.year ++ "-" ++ padNum 2 d.month ++ "-" ++ padNum 2 d.day

/-- Fixed-width digit run as a number. -/
def fixedDigits (w : Nat) (cs : List Char) : Option Nat :=
  if cs.length = w then digitsVal cs else none

/-- Model of ECMA-262 Date Time String Format parsing — the common core
of `new Date(raw)` / `Date.parse(raw)` as the engine uses them —
restricted to the two shapes this development exercises:
`YYYY-MM-DD` (a UTC date) and `YYYY-MM-DDTHH:MMZ` (a UTC date-time).
The engine only inspects parse success and, in the `part_006` revision,
the UTC calendar date via `toISOString().slice(0, 10)`; both are fully
determined by the returned `YMD`.  Out-of-range fields fail, as in the
format grammar. -/
def jsDateParse (s : String) : Option YMD :=
  let cs := s.toList
  let date : List Char → Option YMD := fun ds =>
    match ds.splitOn '-' with
    | [ys, ms, dsd] =>
      match fixedDigits 4 ys, fixedDigits 2 ms, fixedDigits 2 dsd with
      | some y, some m, some d =>
        if 1 ≤ m && m ≤ 12 && 1 ≤ d && d ≤ 31 then some ⟨y, m, d⟩ else none
      | _, _, _ => none
    | _ => none
  match cs.splitOn 'T' with
  | [ds] => date ds
  | [ds, ts] =>
    match ts.splitOn ':' with
    | [hs, rest] =>
      match rest.reverse with
      | 'Z' :: mrev =>
        match fixedDigits 2 hs, fixedDigits 2 mrev.reverse with
        | some h, some mi => if h ≤ 23 && mi ≤ 59 then date ds else none
        | _, _ => none
      | _ => none
    | _ => none
  | _ => none

/-- The regular expression `/^[^\s@]+@[^\s@]+\.[^\s@]+$/` used for email
validation: exactly one `@`; a non-empty run of non-whitespace,
non-`@` characters before it; after it, a non-empty run containing a
`.` that is neither its first nor its last character. -/
def emailShape (s : String) : Bool :=
  match s.toList.splitOn '@' with
  | [a, b] =>
    !a.isEmpty && a.all (fun c => !isWs c) &&
    !b.isEmpty && b.all (fun c => !isWs c) &&
    ((b.drop 1).dropLast.contains '.')
  | _ => false

/-! ## Form schema (`src/unnamed/part_008`, `loadForm` / `Field`) -/

/-- The field kinds of the `Field` union type in the form schema module. -/
inductive FieldType where
  | text
  | number
  | date
  | select
  | radio
  | file
  deriving DecidableEq

/-- One field of the loaded form definition.  The kind-specific members of
the TS union are flattened: `options` is meaningful for `select`/`radio`
(the engine reads it as `field.options ?? []`), `vmin`/`vmax` model
`validation.min`/`validation.max` of `number` fields, `emailV` models
`validation.kind === "email"` of `text` fields, and `allowPdf` models
`validation.allowedMime?.includes("application/pdf")` of `file` fields. -/
structure Field where
  id : String
  type : FieldType
  label : String
  required : Bool := false
  options : List String := []
  vmin : Option ℚ := none
  vmax : Option ℚ := none
  emailV : Bool := false
  allowPdf : Bool := false
  deriving DecidableEq

/-- A loaded form definition.  `loadForm` guarantees `targetCount` is set,
defaulting it to 1 for old forms. -/
structure FormDef where
  fields : List Field
  targetCount : Nat
  deriving DecidableEq

/-! ## Validator (`src/lib/engine.ts`, `validate`, lines 163–195) -/

/-- Result of `validate`: `{ ok: true; value }` or `{ ok: false; error }`. -/
inductive VResult where
  | ok (value : Jv)
  | err (error : String)

/-- `validate` from `src/lib/engine.ts` (the engine module every API
route imports).  Note: choice fields are matched exactly and
case-sensitively via `opts.includes(raw)`; date fields return the raw
string on success; number fields reject only `NaN`. -/
def validate (field : Field) (raw : String) : VResult :=
  if field.type ≠ .file && field.required && jsTrim raw = "" then
    .err "Please enter a value."
  else if field.type = .number then
    match jsNumber raw with
    | .nan => .err "Please enter a valid number."
    | n => .ok (.num n)
  else if field.type = .date then
    match jsDateParse raw with
    | none => .err "Please enter a valid date."
    | some _ => .ok (.str raw)
  else if field.type = .select || field.type = .radio then
    if raw ∈ field.options then .ok (.str raw)
    else .err "Please choose one of the options."
  else if field.type = .text && field.emailV then
    if emailShape (jsTrim raw) then .ok (.str (jsTrim raw))
    else .err "Please enter a valid email address."
  else .ok (.str raw)

/-! ## Engine state and its JSON round-trip -/

/-- The session state stored in `sessions.answers_json`:
`__refs` (completed reference objects — arbitrary JS values when read
back from storage) and `__draft` (the reference currently being filled). -/
structure EngineState where
  __refs : List Jv
  __draft : JRec

mutual

/-- `JSON.stringify` value normalization: non-finite numbers serialize as
`null`; arrays and objects are serialized element-wise.  (No value the
engine stores contains `undefined`, functions, or cycles.) -/
def jnorm : Jv → Jv
  | .num (.fin q) => .num (.fin q)
  | .num _ => .null
  | .arr xs => .arr (jnormList xs)
  | .obj kvs => .obj (jnormEntries kvs)
  | .null => .null
  | .bool b => .bool b
  | .str s => .str s

/-- `jnorm` on the elements of an array. -/
def jnormList : List Jv → List Jv
  | [] => []
  | x :: xs => jnorm x :: jnormList xs

/-- `jnorm` on the entries of an object. -/
def jnormEntries : List (String × Jv) → List (String × Jv)
  | [] => []
  | (k, v) :: kvs => (k, jnorm v) :: jnormEntries kvs

end

/-- The JSON document produced by `JSON.stringify(state)` in `saveState`,
modelled at the level of parsed JSON values. -/
def stateToJv (s : EngineState) : Jv :=
  .obj [("__refs", .arr (jnormList s.__refs)), ("__draft", .obj (jnormEntries s.__draft))]

/-- `parseState` from `src/lib/engine.ts` lines 84–104.  Its input here
is the result of `JSON.parse` on the stored `answers_json` text: `none`
when parsing threw (caught by the surrounding `try`), `some v` otherwise;
the `json || "{}"` default makes the empty stored string parse to
`some (.obj [])`.  Property access `o.__refs` on a parsed `null` throws a
`TypeError`, which the same `try` catches, hence the `.null` case. -/
def parseState : Option Jv → EngineState
  | none => ⟨[], []⟩
  | some o =>
    match o with
    | .null => ⟨[], []⟩
    | o =>
      if !optTruthy (jvGetProp o "__refs") && !optTruthy (jvGetProp o "__draft") then
        -- Back-compat: old flat answers become the draft, `{ ...(o || {}) }`
        ⟨[], jsSpread (if jvTruthy o then o else .obj [])⟩
      else if jvTruthy o && jvTypeofObject o then
        ⟨(match jvGetProp o "__refs" with
          | some (.arr xs) => xs
          | _ => []),
         (match jvGetProp o "__draft" with
          | some (.obj kvs) => kvs
          -- a stored array passes `typeof === "object"` and is kept as
          -- the draft; it is represented here by its index-keyed
          -- properties, which is how every later draft operation reads it
          | some (.arr xs) => jsSpread (.arr xs)
          | _ => [])⟩
      else ⟨[], []⟩

/-! ## Sessions, the store, and responses (`src/lib/engine.ts`) -/

/-- `EngineStatus` from the engine module. -/
inductive EngineStatus where
  | in_progress
  | submitted
  deriving DecidableEq

/-- The columns of a `sessions` row the engine reads or writes.
`answers_json` is a TEXT column holding a JSON document; it is modelled
by the result of `JSON.parse` on it (`none` when that would throw).
The `id`, `form_id` and `updated_at` columns are not modelled: the
development works with the one session the claims quantify over, and no
claim mentions timestamps. -/
structure SessionRow where
  field_index : Nat
  answers_json : Option Jv
  status : EngineStatus

/-- The slice of the database the engine touches for one session: the
session row (if any) and the `answers_json` column of the `submissions`
rows inserted for it, in insertion order.  (The `files` table is touched
only by `recordFileAndAdvance`, which no settled claim needs.) -/
structure Db where
  session : Option SessionRow
  submissions : List Jv

/-- `getSessionRow`: `SELECT * FROM sessions WHERE id = ?`. -/
def getSessionRow (db : Db) : Option SessionRow :=
  db.session

/-- `upsertSession`: return the existing row, or insert
`(field_index 0, answers_json '{}', status 'in_progress')` and return it. -/
def upsertSession (db : Db) : SessionRow × Db :=
  match db.session with
  | some s => (s, db)
  | none =>
    let row : SessionRow := ⟨0, some (.obj []), .in_progress⟩
    (row, { db with session := some row })

/-- `saveState`: `UPDATE sessions SET field_index, answers_json, status`.
The stored text is `JSON.stringify(state)`, modelled by `stateToJv`. -/
def saveState (db : Db) (fieldIndex : Nat) (st : EngineState) (status : EngineStatus) : Db :=
  { db with session := some ⟨fieldIndex, some (stateToJv st), status⟩ }

/-- `InputHint` from the engine module. -/
inductive InputHint where
  | text
  | number
  | date
  | choice (options : List String)
  | file (accept : Option String)
  deriving DecidableEq

/-- `hintForField`. -/
def hintForField (field : Field) : InputHint :=
  match field.type with
  | .text => .text
  | .number => .number
  | .date => .date
  | .select => .choice field.options
  | .radio => .choice field.options
  | .file => .file (if field.allowPdf then some "application/pdf" else none)

/-- A `ChatResponse`.  The constant `sessionId` member is omitted; the
`review` payload `answers = { references, fields }` is carried as the
`references` and `fieldList` members.  `thrown` models a `TypeError`
escaping the engine (indexing `form.fields` out of range), which aborts
the turn; it is unreachable for the indices the engine itself maintains. -/
inductive ChatResponse where
  | ask (answers_json : EngineState) (fieldId : String) (message : String)
        (input : InputHint) (done : Nat) (total : Nat)
  | review (answers_json : EngineState) (message : String)
           (references : List Jv) (fieldList : List (String × String))
           (done : Nat) (total : Nat)
  | done (answers_json : EngineState) (message : String)
  | thrown

/-- The fixed acknowledgment pool `ACKS`. -/
def ACKS : List String :=
  ["Got it.", "Perfect — let’s keep going!", "Nice.", "Awesome, thanks."]

/-- First whitespace-delimited token, `v.trim().split(/\s+/)[0]`. -/
def firstToken (s : String) : String :=
  String.mk (s.toList.takeWhile (fun c => !isWs c))

/-- `extractName`: first of `name`, `full_name`, `first_name` whose draft
value is a string with trimmed length above 1; yields its first token. -/
def extractName (state : EngineState) : Option String :=
  let check : String → Option String := fun k =>
    match getKey state.__draft k with
    | some (.str v) =>
      if (jsTrim v).length > 1 then some (firstToken (jsTrim v)) else none
    | _ => none
  ((check "name").orElse fun _ => (check "full_name").orElse fun _ => check "first_name")

/-- `withAck`: prefix an `ask` message with the acknowledgment drawn by
`pickAck()` (the random draw is the explicit argument `ack`), personalized
with the extracted name when present.  `review`/`done` pass through. -/
def withAck (ack : String) (res : ChatResponse) (state : Option EngineState) : ChatResponse :=
  match res with
  | .ask aj fid msg inp d t =>
    let name := match state with
      | some st => extractName st
      | none => none
    let ackMsg := match name with
      | some n => ack ++ " " ++ n ++ "."
      | none => ack
    .ask aj fid (ackMsg ++ "\n\n" ++ msg) inp d t
  | r => r

/-- The record `progressFor` returns. -/
structure Progress where
  done : Nat
  total : Nat
  doneRefs : Nat
  totalRefs : Nat
  state : EngineState
  fieldIndex : Nat

/-- `progressFor`. -/
def progressFor (form : FormDef) (session : SessionRow) : Progress :=
  let state := parseState session.answers_json
  let fieldsPer := form.fields.length
  let totalRefs := max 1 form.targetCount
  let doneRefs := state.__refs.length
  let fieldIndex := session.field_index
  { done := min (doneRefs * fieldsPer + fieldIndex) (totalRefs * fieldsPer)
    total := totalRefs * fieldsPer
    doneRefs := doneRefs
    totalRefs := totalRefs
    state := state
    fieldIndex := fieldIndex }

/-- `currentRefNumber`. -/
def currentRefNumber (doneRefs : Nat) : Nat :=
  doneRefs + 1

/-! ## Summary / review rendering helpers -/

/-- Fraction digits of `rem/den` in base 10, with fuel. -/
def fracDigits : Nat → Nat → Nat → List Char
  | 0, _, _ => []
  | _ + 1, 0, _ => []
  | fuel + 1, rem, den =>
    Char.ofNat ('0'.toNat + rem * 10 / den) :: fracDigits fuel (rem * 10 % den) den

/-- Model of JS number-to-string (template interpolation, `String(v)` and
JSON number serialization): exact on integers (the only numbers whose
rendering any theorem below observes) and on terminating decimals;
`NaN` and the infinities render as in JS. -/
def jsNumToString : JsNum → String
  | .nan => "NaN"
  | .inf => "Infinity"
  | .negInf => "-Infinity"
  | .fin q =>
    if q.den = 1 then toString q.num
    else
      (if q < 0 then "-" else "") ++ toString (q.num.natAbs / q.den) ++ "." ++
        String.mk (fracDigits 400 (q.num.natAbs % q.den) q.den)

mutual

/-- Template-literal stringification `${v}` of a JS value. -/
def jvTemplateString : Jv → String
  | .null => "null"
  | .bool b => if b then "true" else "false"
  | .num n => jsNumToString n
  | .str s => s
  | .arr xs => String.intercalate "," (jvTemplateList xs)
  | .obj _ => "[object Object]"

/-- Elements of an array as joined by `Array.prototype.toString`
(`null` renders as the empty string there). -/
def jvTemplateList : List Jv → List String
  | [] => []
  | .null :: xs => "" :: jvTemplateList xs
  | x :: xs => jvTemplateString x :: jvTemplateList xs

end

/-- String escaping of `JSON.stringify` (the escapes exercised here). -/
def jsonQuote (s : String) : String :=
  "\"" ++ String.join (s.toList.map fun c =>
    if c = '"' then "\\\""
    else if c = '\\' then "\\\\"
    else if c = '\n' then "\\n"
    else if c = '\t' then "\\t"
    else if c = '\r' then "\\r"
    else String.mk [c]) ++ "\""

/-- `n` spaces. -/
def indentStr (n : Nat) : String :=
  String.mk (List.replicate n ' ')

mutual

/-- `JSON.stringify(v, null, 2)` at nesting level `lvl`: two-space
indented pretty JSON; non-finite numbers serialize as `null`. -/
def jvStringify2 : Nat → Jv → String
  | _, .null => "null"
  | _, .bool b => if b then "true" else "false"
  | _, .num (.fin q) => jsNumToString (.fin q)
  | _, .num _ => "null"
  | _, .str s => jsonQuote s
  | _, .arr [] => "[]"
  | lvl, .arr (x :: xs) =>
    "[\n" ++
      String.intercalate ",\n"
        ((jvStringifyItems (lvl + 1) (x :: xs)).map fun s => indentStr ((lvl + 1) * 2) ++ s) ++
      "\n" ++ indentStr (lvl * 2) ++ "]"
  | _, .obj [] => "\x7b\x7d"
  | lvl, .obj (e :: es) =>
    "\x7b\n" ++
      String.intercalate ",\n"
        ((jvStringifyEntries (lvl + 1) (e :: es)).map fun s => indentStr ((lvl + 1) * 2) ++ s) ++
      "\n" ++ indentStr (lvl * 2) ++ "\x7d"

/-- Array items rendered for `jvStringify2`. -/
def jvStringifyItems : Nat → List Jv → List String
  | _, [] => []
  | lvl, x :: xs => jvStringify2 lvl x :: jvStringifyItems lvl xs

/-- Object entries rendered for `jvStringify2`. -/
def jvStringifyEntries : Nat → List (String × Jv) → List String
  | _, [] => []
  | lvl, (k, v) :: es => (jsonQuote k ++ ": " ++ jvStringify2 lvl v) :: jvStringifyEntries lvl es

end

mutual

/-- `formatValueForSummary` from the engine module, on a defined value. -/
def formatValueForSummary : Jv → String
  | .null => ""
  | .str s => s
  | .num n => jsNumToString n
  | .bool b => if b then "true" else "false"
  | .arr xs => String.intercalate ", " ((formatValueList xs).filter fun s => s ≠ "")
  | .obj kvs =>
    -- common file shape `{ fileId, name, mime, sizeBytes }`
    if optTruthy (getKey kvs "name") && optTruthy (getKey kvs "mime") then
      (match getKey kvs "name" with
       | some v => jvTemplateString v
       | none => "undefined") ++ " (" ++
      (match getKey kvs "mime" with
       | some v => jvTemplateString v
       | none => "undefined") ++ ")"
    else jvStringify2 0 (.obj kvs)

/-- `v.map(formatValueForSummary)` on array elements. -/
def formatValueList : List Jv → List String
  | [] => []
  | x :: xs => formatValueForSummary x :: formatValueList xs

end

/-- `formatValueForSummary` on a possibly-`undefined` value. -/
def formatValueOpt : Option Jv → String
  | none => ""
  | some v => formatValueForSummary v

/-- `buildCleanSummary`: one labeled block per committed reference,
one line per field with a non-empty rendered value, blank line between
references. -/
def buildCleanSummary (form : FormDef) (state : EngineState) : String :=
  let refs := state.__refs
  if refs.length = 0 then "(No references captured)"
  else
    let blocks := refs.enum.map fun e =>
      let ref := if jvTruthy e.2 then e.2 else .obj []   -- `refs[r] || {}`
      let lines := form.fields.filterMap fun f =>
        let val := formatValueOpt (jvGetProp ref f.id)
        if val = "" then none else some ("- " ++ f.label ++ ": " ++ val)
      ("Reference " ++ toString (e.1 + 1)) :: lines
    String.intercalate "\n" (List.intercalate [""] blocks)

/-- The field order of `buildReviewPayload`: `{ id, label }` per field. -/
def reviewFieldList (form : FormDef) : List (String × String) :=
  form.fields.map fun f => (f.id, f.label)

/-- `responseFromState`. -/
def responseFromState (form : FormDef) (state : EngineState) (fieldIndex : Nat) : ChatResponse :=
  let fieldsPer := form.fields.length
  let totalRefs := max 1 form.targetCount
  let doneRefs := state.__refs.length
  let total := totalRefs * fieldsPer
  let done := min (doneRefs * fieldsPer + fieldIndex) total
  if doneRefs ≥ totalRefs then
    .review state ("To quickly review, does everything look right?\n\n" ++ buildCleanSummary form state)
      state.__refs (reviewFieldList form) total total
  else
    match form.fields.get? fieldIndex with
    | none => .thrown
    | some field =>
      if field.type = .file then
        .ask state field.id
          ("Reference " ++ toString (doneRefs + 1) ++ " of " ++ toString totalRefs ++
            "\n\nPlease upload the file using the upload button below.")
          (hintForField field) done total
      else
        .ask state field.id
          ("Reference " ++ toString (doneRefs + 1) ++ " of " ++ toString totalRefs ++
            "\n\n" ++ field.label)
          (hintForField field) done total

/-! ## Engine entry points (`src/lib/engine.ts`) -/

/-- `startOrContinue`.  The generated session id is not modelled (the
development tracks the single session the claims quantify over). -/
def startOrContinue (form : FormDef) (db : Db) : ChatResponse × Db :=
  let r := upsertSession db
  let session := r.1
  let db1 := r.2
  if session.status = .submitted then
    (.done (parseState session.answers_json) "This conversation is already submitted. Thanks!", db1)
  else
    let p := progressFor form session
    if p.doneRefs ≥ p.totalRefs then
      (.review p.state
        ("To quickly review, does everything look right?\n\n" ++ buildCleanSummary form p.state)
        p.state.__refs (reviewFieldList form) p.total p.total, db1)
    else
      match form.fields.get? p.fieldIndex with
      | none => (.thrown, db1)
      | some field =>
        if field.type = .file then
          (.ask p.state field.id
            ("Reference " ++ toString (currentRefNumber p.doneRefs) ++ " of " ++ toString p.totalRefs ++
              "\n\nPlease upload the file using the upload button below.")
            (hintForField field) p.done p.total, db1)
        else
          (.ask p.state field.id
            ("Reference " ++ toString (currentRefNumber p.doneRefs) ++ " of " ++ toString p.totalRefs ++
              "\n\n" ++ field.label)
            (hintForField field) p.done p.total, db1)

/-- `goBackOne`: within a reference, delete the previous field's draft
answer; at the start of a reference (or from review), pop the last
committed reference back into the draft. -/
def goBackOne (form : FormDef) (db : Db) : ChatResponse × Db :=
  match getSessionRow db with
  | none => startOrContinue form db
  | some session =>
    let p := progressFor form session
    let state := p.state
    if p.doneRefs ≥ p.totalRefs then
      match state.__refs.getLast? with
      | some last =>
        let state' : EngineState := ⟨state.__refs.dropLast, jsSpread last⟩
        -- `Math.max(0, form.fields.length - 1)`; Nat subtraction is already clamped at 0
        let lastFieldIndex := form.fields.length - 1
        let db' := saveState db lastFieldIndex state' .in_progress
        (responseFromState form state' lastFieldIndex, db')
      | none =>
        let db' := saveState db 0 ⟨[], []⟩ .in_progress
        startOrContinue form db'
    else if p.fieldIndex > 0 then
      match form.fields.get? (p.fieldIndex - 1) with
      | none => (.thrown, db)   -- source reads `.id` of `undefined` here
      | some prevField =>
        let state' : EngineState := ⟨state.__refs, delKey state.__draft prevField.id⟩
        let prevIdx := p.fieldIndex - 1
        let db' := saveState db prevIdx state' .in_progress
        (responseFromState form state' prevIdx, db')
    else
      match state.__refs.getLast? with
      | some last =>
        let state' : EngineState := ⟨state.__refs.dropLast, jsSpread last⟩
        let lastFieldIndex := form.fields.length - 1
        let db' := saveState db lastFieldIndex state' .in_progress
        (responseFromState form state' lastFieldIndex, db')
      | none =>
        let db' := saveState db 0 ⟨[], []⟩ .in_progress
        startOrContinue form db'

/-- `handleUserMessage`.  `ack` is the acknowledgment phrase drawn by
`pickAck()` for this turn (the one non-deterministic input). -/
def handleUserMessage (form : FormDef) (ack : String) (userText : String) (db : Db) :
    ChatResponse × Db :=
  let r := upsertSession db
  let session := r.1
  let db1 := r.2
  let state := parseState session.answers_json
  let cmd := jsToLower (jsTrim userText)
  if cmd = "restart" then
    startOrContinue form (saveState db1 0 ⟨[], []⟩ .in_progress)
  else if cmd = "back" then
    goBackOne form db1
  else
    let p := progressFor form session
    if p.doneRefs ≥ p.totalRefs then
      (.review state
        ("To quickly review, does everything look right?\n\n" ++ buildCleanSummary form state)
        state.__refs (reviewFieldList form) p.total p.total, db1)
    else
      match form.fields.get? p.fieldIndex with
      | none => (.thrown, db1)
      | some field =>
        if field.type = .file then
          (.ask state field.id "Please upload the file using the upload button below."
            (hintForField field) p.done p.total, db1)
        else
          match validate field userText with
          | .err e => (.ask state field.id e (hintForField field) p.done p.total, db1)
          | .ok v =>
            let state1 : EngineState := ⟨state.__refs, setKey state.__draft field.id v⟩
            let nextFieldIndex := p.fieldIndex + 1
            if nextFieldIndex ≥ form.fields.length then
              let state2 : EngineState := ⟨state1.__refs ++ [.obj state1.__draft], []⟩
              if state2.__refs.length < form.targetCount then
                (withAck ack (responseFromState form state2 0) (some state2),
                 saveState db1 0 state2 .in_progress)
              else
                (responseFromState form state2 0, saveState db1 0 state2 .in_progress)
            else
              (withAck ack (responseFromState form state1 nextFieldIndex) (some state1),
               saveState db1 nextFieldIndex state1 .in_progress)

/-- The loop body shared by both passes of `isDraftComplete`: the field's
draft value is defined, non-`null`, and not a blank string
(`v === undefined || v === null` fails; a string must have non-empty trim). -/
def draftValueOk (draft : JRec) (f : Field) : Bool :=
  match getKey draft f.id with
  | none => false
  | some .null => false
  | some (.str s) => !(jsTrim s = "")
  | some _ => true

/-- `isDraftComplete`: the submit-time completion check.  (The leading
`!draft || typeof draft !== "object"` guard of the source cannot fire
here: `parseState` always hands it an object, modelled by `JRec`.) -/
def isDraftComplete (form : FormDef) (draft : JRec) : Bool :=
  -- first loop: every required field has a defined, non-null, non-blank value
  (form.fields.all fun f => !f.required || draftValueOk draft f) &&
  -- `started`: the draft has at least one key
  !draft.isEmpty &&
  -- stricter: every field, required or not, has such a value
  (form.fields.all fun f => draftValueOk draft f)

/-- `commitDraftIfComplete`: submit-time safety net. -/
def commitDraftIfComplete (form : FormDef) (state : EngineState) : EngineState :=
  if state.__refs.length > 0 then state
  else if isDraftComplete form state.__draft then
    ⟨state.__refs ++ [.obj state.__draft], []⟩
  else state

/-- `submitSession`: safety-commit the draft, append a `submissions` row
(unconditionally), mark the session submitted, return the summary. -/
def submitSession (form : FormDef) (db : Db) : ChatResponse × Db :=
  match getSessionRow db with
  | none => (.done ⟨[], []⟩ "Session not found.", db)
  | some session =>
    let state := commitDraftIfComplete form (parseState session.answers_json)
    let db1 : Db := { db with submissions := db.submissions ++ [stateToJv state] }
    let p := progressFor form session
    let db2 := saveState db1 p.fieldIndex state .submitted
    (.done state ("Submitted. Here’s the information you provided:\n\n" ++
        buildCleanSummary form state), db2)

/-- Run a list of user turns through `handleUserMessage` with a fixed
acknowledgment draw, returning the last turn's response (if any) and the
final database. -/
def runChat (form : FormDef) (ack : String) : Db → List String → Option ChatResponse × Db
  | db, [] => (none, db)
  | db, t :: ts =>
    let r := handleUserMessage form ack t db
    match ts with
    | [] => (some r.1, r.2)
    | _ :: _ => runChat form ack r.2 ts

/-! ## Concrete fields, forms and databases for closed evaluations -/

/-- A required text field. -/
def nameField : Field :=
  { id := "name", type := .text, label := "Your name", required := true }

/-- A second required text field. -/
def cityField : Field :=
  { id := "city", type := .text, label := "Your city", required := true }

/-- A required choice field with options `A` and `B`. -/
def roleField : Field :=
  { id := "role", type := .select, label := "Role", required := true, options := ["A", "B"] }

/-- A required number field with declared bounds 18 and 99. -/
def ageField : Field :=
  { id := "age", type := .number, label := "Age", required := true,
    vmin := some 18, vmax := some 99 }

/-- A required date field. -/
def whenField : Field :=
  { id := "when", type := .date, label := "Date", required := true }

/-- A one-field, one-record form. -/
def demoForm : FormDef := ⟨[nameField], 1⟩

/-- A two-field, one-record form. -/
def pairForm : FormDef := ⟨[nameField, cityField], 1⟩

/-- A state with one committed reference and an empty draft. -/
def oneRefState : EngineState := ⟨[.obj [("name", .str "Ann")]], []⟩

/-- A database whose session holds `oneRefState`, not yet submitted. -/
def readyDb : Db := ⟨some ⟨0, some (stateToJv oneRefState), .in_progress⟩, []⟩

/-- A database whose session was already submitted once (one submission row). -/
def frozenDb : Db := ⟨some ⟨0, some (stateToJv oneRefState), .submitted⟩, [stateToJv oneRefState]⟩

/-- A database with a freshly created session row. -/
def freshRowDb : Db := ⟨some ⟨0, some (.obj []), .in_progress⟩, []⟩

/-! ## The earlier engine revision's validator (`src/unnamed/part_006`)

The repository also contains an earlier revision of the engine module
(`src/unnamed/part_006`, dead code: every route imports `@/lib/engine`).
Its `validate` (lines 117–165) differs from the live one exactly where
the spec's §4.1 is richer: case-insensitive choice matching with 1-based
index resolution and an option-enumerating error, date normalization to
`YYYY-MM-DD`, and number `isFinite` plus `min`/`max` checks. -/

namespace EngineV0

/-- The sequential `max` check of the `part_006` number branch. -/
def numberWithMax (q : ℚ) : Option ℚ → VResult
  | some mx =>
    if mx < q then .err ("Please enter a number ≤ " ++ jsNumToString (.fin mx) ++ ".")
    else .ok (.num (.fin q))
  | none => .ok (.num (.fin q))

/-- The case-insensitive lookup of the `part_006` choice branch:
`options.find(o => o.toLowerCase() === normalized)`, with the
option-enumerating error on no match. -/
def choiceByName (options : List String) (normalized : String) : VResult :=
  match options.find? (fun o => jsToLower o = normalized) with
  | none => .err ("Pick one of: " ++ String.intercalate ", " options ++ ".")
  | some m => .ok (.str m)

/-- `validate` from `src/unnamed/part_006` lines 117–165. -/
def validate (field : Field) (raw : String) : VResult :=
  if field.type ≠ .file && field.required && jsTrim raw = "" then
    .err "I need something here — can you enter a value?"
  else if field.type = .text then
    if field.emailV then
      if emailShape (jsTrim raw) then .ok (.str (jsTrim raw))
      else .err "That doesn’t look like an email. Can you try again?"
    else .ok (.str (jsTrim raw))
  else if field.type = .number then
    match jsNumber raw with
    | .fin q =>
      match field.vmin with
      | some m =>
        if q < m then .err ("Please enter a number ≥ " ++ jsNumToString (.fin m) ++ ".")
        else numberWithMax q field.vmax
      | none => numberWithMax q field.vmax
    | _ => .err "Can you enter a number?"
  else if field.type = .date then
    match jsDateParse raw with
    | none => .err "Can you enter a date (or use the date picker)?"
    | some d => .ok (.str (toIsoDate d))
  else if field.type = .select || field.type = .radio then
    match jsNumber (jsToLower (jsTrim raw)) with
    | .fin q =>
      -- `Number.isInteger(idx) && idx >= 1 && idx <= options.length`
      if q.den = 1 && 1 ≤ q.num && q.num ≤ (field.options.length : Int) then
        -- in-range direct index `options[idx - 1]`
        .ok (.str (field.options.getD (q.num.toNat - 1) ""))
      else choiceByName field.options (jsToLower (jsTrim raw))
    | _ => choiceByName field.options (jsToLower (jsTrim raw))
  else .ok (.str (jsTrim raw))

end EngineV0

/-! ## Claim C1 — submit idempotence -/

/-- Claim C1: `submitSession` is claimed to be idempotent for an
already-submitted session.  The code violates this: it never checks
`session.status` and unconditionally INSERTs a `submissions` row.  On a
session holding one committed reference, the first call marks the session
submitted and appends one row; a second call returns the identical DONE
response but appends a second row, so two `Submission` rows exist for one
session. -/
theorem submit_twice_double_appends :
    (submitSession demoForm readyDb).2.session.map SessionRow.status = some .submitted ∧
    (submitSession demoForm (submitSession demoForm readyDb).2).1 =
      (submitSession demoForm readyDb).1 ∧
    (submitSession demoForm readyDb).2.submissions.length = 1 ∧
    (submitSession demoForm (submitSession demoForm readyDb).2).2.submissions.length = 2 :=
  ⟨rfl, rfl, rfl, rfl⟩

/-! ## Claim C2 — submitted sessions are not frozen -/

/-- Claim C2: a submitted session is claimed to be frozen, with `restart`
refused.  The code violates this: `handleUserMessage` never checks
`status`, so the `restart` command on a submitted session resets
`field_index` to 0, clears `answers_json`, flips `status` back to
`in_progress`, and answers with a fresh ASK prompt instead of refusing. -/
theorem restart_unfreezes_submitted :
    frozenDb.session.map SessionRow.status = some .submitted ∧
    (handleUserMessage demoForm "Got it." "restart" frozenDb).2.session =
      some ⟨0, some (stateToJv ⟨[], []⟩), .in_progress⟩ ∧
    (handleUserMessage demoForm "Got it." "restart" frozenDb).1 =
      .ask ⟨[], []⟩ "name" "Reference 1 of 1\n\nYour name" .text 0 1 :=
  ⟨rfl, rfl, rfl⟩

/-! ## Claim C3 — choice resolution -/

/-- Claim C3 counterexample: the claim says a choice field matches
case-insensitively and resolves a 1-based in-range index to
`options[n-1]`, with errors enumerating the valid options.  In
`src/lib/engine.ts` the raw input `"2"` (a 1-based index into
`["A", "B"]`) and the case variant `"b"` are both rejected with the fixed
message `Please choose one of the options.` (which enumerates nothing),
while the exact label `"B"` is accepted. -/
theorem choice_index_and_case_rejected :
    validate roleField "2" = .err "Please choose one of the options." ∧
    validate roleField "b" = .err "Please choose one of the options." ∧
    validate roleField "B" = .ok (.str "B") :=
  ⟨rfl, rfl, rfl⟩

/-- Claim C3 (amended): for every choice (select/radio) field, the raw
input is matched exactly and case-sensitively against the option list;
a member of the list is returned unchanged (hence always a canonical
option string), and every non-member — including 1-based numeric indices
and case variants — yields the fixed error
`Please choose one of the options.`. -/
theorem validate_choice_exact (f : Field) (raw : String)
    (hty : f.type = .select ∨ f.type = .radio)
    (hne : f.required = false ∨ jsTrim raw ≠ "") :
    validate f raw =
      if raw ∈ f.options then .ok (.str raw)
      else .err "Please choose one of the options." := by
  rcases hty with h | h <;> rcases hne with h2 | h2 <;> simp [validate, h, h2]

/-- Witness for `validate_choice_exact` at the concrete choice field
`roleField` and input `"B"`. -/
theorem validate_choice_exact_witness :
    (roleField.type = .select ∨ roleField.type = .radio) ∧
    (roleField.required = false ∨ jsTrim "B" ≠ "") ∧
    validate roleField "B" =
      (if "B" ∈ roleField.options then .ok (.str "B")
       else .err "Please choose one of the options.") :=
  ⟨Or.inl rfl, Or.inr (by decide),
    validate_choice_exact roleField "B" (Or.inl rfl) (Or.inr (by decide))⟩

/-! ## Claim C4 — date normalization -/

/-- Claim C4: on a date field the stored value is claimed to be the
canonical `YYYY-MM-DD` form.  In `src/lib/engine.ts` the parsed input
`2020-01-05T10:30Z` is accepted and stored verbatim
(`return { ok: true, value: raw }`), although its canonical form is
`2020-01-05`; the `part_006` revision of the engine normalizes via
`toISOString().slice(0, 10)` exactly as the claim states. -/
theorem validate_date_keeps_raw :
    jsDateParse "2020-01-05T10:30Z" = some ⟨2020, 1, 5⟩ ∧
    toIsoDate ⟨2020, 1, 5⟩ = "2020-01-05" ∧
    validate whenField "2020-01-05T10:30Z" = .ok (.str "2020-01-05T10:30Z") ∧
    "2020-01-05T10:30Z" ≠ "2020-01-05" :=
  ⟨rfl, rfl, rfl, by decide⟩

/-! ## Claim C5 — number validation -/

/-- Claim C5 counterexample: the claim says non-finite parses are
rejected and values outside the declared `[min, max]` produce an error
naming the bound.  In `src/lib/engine.ts` the number branch checks only
`Number.isNaN`: on a field declaring `min 18, max 99`, the inputs `"5"`
and `"150"` are accepted as numeric values, and `"Infinity"` is accepted
as the non-finite infinity. -/
theorem number_bounds_and_infinity_accepted :
    validate ageField "5" = .ok (.num (.fin 5)) ∧
    validate ageField "150" = .ok (.num (.fin 150)) ∧
    validate ageField "Infinity" = .ok (.num .inf) :=
  ⟨rfl, rfl, rfl⟩

/-- Claim C5 (amended): for every number field, `validate` rejects
exactly the inputs whose JS numeric parse is `NaN` (with the fixed error
`Please enter a valid number.`) and returns the parsed numeric value for
every other input; infinities are accepted and the declared
`min`/`max` bounds are never consulted. -/
theorem validate_number_nan_only (f : Field) (raw : String)
    (hty : f.type = .number)
    (hne : f.required = false ∨ jsTrim raw ≠ "") :
    validate f raw =
      match jsNumber raw with
      | .nan => .err "Please enter a valid number."
      | n => .ok (.num n) := by
  rcases hne with h2 | h2 <;> simp [validate, hty, h2]

/-- Witness for `validate_number_nan_only` at the bounded number field
`ageField` and the out-of-bounds input `"5"`. -/
theorem validate_number_nan_only_witness :
    ageField.type = .number ∧
    (ageField.required = false ∨ jsTrim "5" ≠ "") ∧
    validate ageField "5" =
      (match jsNumber "5" with
       | .nan => .err "Please enter a valid number."
       | n => .ok (.num n)) :=
  ⟨rfl, Or.inr (by decide),
    validate_number_nan_only ageField "5" rfl (Or.inr (by decide))⟩

/-! ## Claim C9 — parseState totality and back-compat -/

/-- Claim C9 counterexample: the claim says a parsed non-object yields
the empty state.  A stored JSON string (for example `"ab"`) is a
non-object, but the legacy branch `{ ...(o || {}) }` spreads it
character-by-character, so the returned draft has the index-keyed
entries `("0", "a"), ("1", "b")` rather than being empty. -/
theorem parseState_string_not_empty :
    parseState (some (.str "ab")) = ⟨[], [("0", .str "a"), ("1", .str "b")]⟩ ∧
    parseState (some (.str "ab")) ≠ ⟨[], []⟩ := by
  constructor
  · rfl
  · intro h
    have h2 : ([("0", Jv.str "a"), ("1", Jv.str "b")] : JRec) = [] :=
      congrArg EngineState.__draft h
    exact List.noConfusion h2

/-- Claim C9 (amended): `parseState` is total; unparseable JSON and JSON
`null` yield the empty state; parsed numbers and booleans yield the
empty state; a parsed string is treated by the legacy branch and spread
character-by-character into the draft (so only the empty string yields
an empty draft); and a legacy flat object with neither a `__refs` nor a
`__draft` key becomes, in its entirety, the draft of a state with zero
committed records. -/
theorem parseState_characterization :
    parseState none = ⟨[], []⟩ ∧
    parseState (some .null) = ⟨[], []⟩ ∧
    (∀ n, parseState (some (.num n)) = ⟨[], []⟩) ∧
    (∀ b, parseState (some (.bool b)) = ⟨[], []⟩) ∧
    (∀ s, parseState (some (.str s)) = ⟨[], jsSpread (.str s)⟩) ∧
    (∀ kvs : JRec, getKey kvs "__refs" = none → getKey kvs "__draft" = none →
      parseState (some (.obj kvs)) = ⟨[], kvs⟩) := by
  refine ⟨rfl, rfl, ?_, ?_, ?_, ?_⟩
  · intro n
    cases n with
    | fin q =>
      by_cases hq : q = 0
      · simp [parseState, jvGetProp, optTruthy, jvTruthy, hq, jsSpread]
      · simp [parseState, jvGetProp, optTruthy, jvTruthy, hq, jsSpread]
    | inf => rfl
    | negInf => rfl
    | nan => rfl
  · intro b
    cases b <;> rfl
  · intro s
    by_cases h : s = ""
    · subst h; rfl
    · simp [parseState, jvGetProp, optTruthy, jvTruthy, h, jsSpread]
  · intro kvs h1 h2
    simp [parseState, jvGetProp, optTruthy, h1, h2, jvTruthy, jsSpread]

/-- Witness for `parseState_characterization` at a concrete legacy flat
object: `{"name": "Ann"}` is reinterpreted as the draft. -/
theorem parseState_characterization_witness :
    getKey [("name", Jv.str "Ann")] "__refs" = none ∧
    getKey [("name", Jv.str "Ann")] "__draft" = none ∧
    parseState (some (.obj [("name", Jv.str "Ann")])) = ⟨[], [("name", Jv.str "Ann")]⟩ :=
  ⟨rfl, rfl, parseState_characterization.2.2.2.2.2 [("name", Jv.str "Ann")] rfl rfl⟩

/-! ## Claim C10 — the submit-time auto-commit safety net -/

/-- Claim C10: `commitDraftIfComplete` returns the state unchanged
whenever `__refs` is non-empty, and commits the draft (pushing a copy
onto `__refs` and clearing `__draft`) exactly when `__refs` is empty,
the draft has at least one key, and every schema field — required or
not — has a defined, non-null value that is not a blank string. -/
theorem commitDraft_characterization (form : FormDef) (s : EngineState) :
    commitDraftIfComplete form s =
      if s.__refs.isEmpty && !s.__draft.isEmpty && form.fields.all (draftValueOk s.__draft) then
        ⟨s.__refs ++ [.obj s.__draft], []⟩
      else s := by
  rcases s with ⟨refs, draft⟩
  cases refs with
  | cons a l => simp [commitDraftIfComplete, List.isEmpty]
  | nil =>
    by_cases hfull : form.fields.all (draftValueOk draft) = true
    · have hreq : (form.fields.all fun f => !f.required || draftValueOk draft f) = true := by
        rw [List.all_eq_true] at hfull ⊢
        intro f hf
        simp [hfull f hf]
      cases hD : draft.isEmpty <;>
        simp [commitDraftIfComplete, isDraftComplete, hreq, hfull, hD]
    · replace hfull : form.fields.all (draftValueOk draft) = false :=
        Bool.eq_false_iff.mpr hfull
      simp [commitDraftIfComplete, isDraftComplete, hfull]

/-! ## Claim C6 — validation failure mutates nothing -/

/-- The existing-session case of `upsertSession`: the row is returned and
the database is untouched. -/
lemma upsertSession_of_some (db : Db) (row : SessionRow) (hdb : db.session = some row) :
    upsertSession db = (row, db) := by
  unfold upsertSession
  rw [hdb]

/-- Claim C6: for every in-progress session in ASK at a non-file field,
a raw answer that fails validation makes `handleUserMessage` return an
ASK for the same `fieldId` at the same cursor whose message is the
validation error, and the database — hence the persisted `field_index`,
`answers_json` and `status` — is returned exactly as it was: the
failure branch performs no `saveState`. -/
theorem validation_failure_is_pure (form : FormDef) (ack userText : String)
    (row : SessionRow) (db : Db) (field : Field) (e : String)
    (hdb : db.session = some row)
    (hstat : row.status = .in_progress)
    (hcmd1 : jsToLower (jsTrim userText) ≠ "restart")
    (hcmd2 : jsToLower (jsTrim userText) ≠ "back")
    (hask : (parseState row.answers_json).__refs.length < max 1 form.targetCount)
    (hfield : form.fields.get? row.field_index = some field)
    (hfile : field.type ≠ .file)
    (hval : validate field userText = .err e) :
    handleUserMessage form ack userText db =
      (.ask (parseState row.answers_json) field.id e (hintForField field)
        (min ((parseState row.answers_json).__refs.length * form.fields.length + row.field_index)
          (max 1 form.targetCount * form.fields.length))
        (max 1 form.targetCount * form.fields.length), db) := by
  unfold handleUserMessage
  rw [upsertSession_of_some db row hdb]
  simp only [progressFor]
  rw [if_neg hcmd1, if_neg hcmd2, if_neg (by exact Nat.not_le.mpr hask), hfield]
  dsimp only
  rw [if_neg hfile, hval]

/-- Witness for `validation_failure_is_pure`: an empty answer to the
required text field of `demoForm` fails validation and the turn returns
the same database. -/
theorem validation_failure_is_pure_witness :
    validate nameField "" = .err "Please enter a value." ∧
    (parseState (some (Jv.obj []))).__refs.length < max 1 demoForm.targetCount ∧
    handleUserMessage demoForm "Nice." "" freshRowDb =
      (.ask ⟨[], []⟩ "name" "Please enter a value." .text 0 1, freshRowDb) :=
  ⟨rfl, by decide,
    validation_failure_is_pure demoForm "Nice." "" ⟨0, some (.obj []), .in_progress⟩
      freshRowDb nameField "Please enter a value."
      rfl rfl (by decide) (by decide) (by decide) rfl (by decide) rfl⟩

/-! ## Serialization lemmas: what a `saveState`-written row parses back to -/

/-- `JSON.stringify` keeps the number of committed references. -/
lemma jnormList_length (xs : List Jv) : (jnormList xs).length = xs.length := by
  induction xs with
  | nil => rfl
  | cons x xs ih => simp [jnormList, ih]

/-- A state written by `saveState` parses back to itself up to
serialization of its values. -/
lemma parseState_stateToJv (s : EngineState) :
    parseState (some (stateToJv s)) = ⟨jnormList s.__refs, jnormEntries s.__draft⟩ := rfl

/-- Serialization commutes with a property write. -/
lemma jnormEntries_setKey (r : JRec) (k : String) (v : Jv) :
    jnormEntries (setKey r k v) = setKey (jnormEntries r) k (jnorm v) := by
  induction r with
  | nil => rfl
  | cons e r ih =>
    rcases e with ⟨k1, v1⟩
    by_cases h : k1 = k
    · simp [setKey, jnormEntries, h]
    · simp [setKey, jnormEntries, h, ih]

/-- Serialization preserves key lookup up to value serialization. -/
lemma getKey_jnormEntries (r : JRec) (k : String) :
    getKey (jnormEntries r) k = (getKey r k).map jnorm := by
  induction r with
  | nil => rfl
  | cons e r ih =>
    rcases e with ⟨k1, v1⟩
    by_cases h : k1 = k
    · simp [getKey, jnormEntries, List.find?, h]
    · simp only [getKey, jnormEntries, List.find?] at ih ⊢
      simp [h, ih]

/-- Deleting the key that was just written deletes nothing else. -/
lemma delKey_setKey (r : JRec) (k : String) (v : Jv) :
    delKey (setKey r k v) k = delKey r k := by
  induction r with
  | nil => simp [setKey, delKey]
  | cons e r ih =>
    rcases e with ⟨k1, v1⟩
    by_cases h : k1 = k
    · simp [setKey, delKey, h, List.filter]
    · simp [setKey, delKey, h, List.filter, ih] at ih ⊢
      exact ih

/-- Deleting an absent key is a no-op. -/
lemma delKey_of_getKey_none (r : JRec) (k : String) (h : getKey r k = none) :
    delKey r k = r := by
  induction r with
  | nil => rfl
  | cons e r ih =>
    rcases e with ⟨k1, v1⟩
    by_cases hk : k1 = k
    · exfalso
      simp [getKey, List.find?, hk] at h
    · have h2 : getKey r k = none := by
        simpa [getKey, List.find?, hk] using h
      simp [delKey, List.filter, hk, ih h2] at ih ⊢
      exact ih h2

/-! ## One-step characterizations of `handleUserMessage` and `goBackOne` -/

/-- A valid answer at a cursor that stays within the record stores the
value in the draft, advances the cursor by one, and persists. -/
lemma handleUserMessage_answer_advance (form : FormDef) (ack t : String)
    (db : Db) (row : SessionRow) (field : Field) (v : Jv)
    (hdb : db.session = some row)
    (hcmd1 : jsToLower (jsTrim t) ≠ "restart")
    (hcmd2 : jsToLower (jsTrim t) ≠ "back")
    (hask : (parseState row.answers_json).__refs.length < max 1 form.targetCount)
    (hfield : form.fields.get? row.field_index = some field)
    (hfile : field.type ≠ .file)
    (hval : validate field t = .ok v)
    (hlt : row.field_index + 1 < form.fields.length) :
    handleUserMessage form ack t db =
      (withAck ack
        (responseFromState form
          ⟨(parseState row.answers_json).__refs,
           setKey (parseState row.answers_json).__draft field.id v⟩
          (row.field_index + 1))
        (some ⟨(parseState row.answers_json).__refs,
               setKey (parseState row.answers_json).__draft field.id v⟩),
       saveState db (row.field_index + 1)
         ⟨(parseState row.answers_json).__refs,
          setKey (parseState row.answers_json).__draft field.id v⟩ .in_progress) := by
  unfold handleUserMessage
  rw [upsertSession_of_some db row hdb]
  simp only [progressFor]
  rw [if_neg hcmd1, if_neg hcmd2, if_neg (by exact Nat.not_le.mpr hask), hfield]
  dsimp only
  rw [if_neg hfile, hval]
  dsimp only
  rw [if_neg (by exact Nat.not_le.mpr hlt)]

/-- A valid answer at the last field of the record commits the draft:
it is pushed (with the new value) onto `__refs`, the draft is cleared,
and the cursor is reset to 0. -/
lemma handleUserMessage_answer_commit (form : FormDef) (ack t : String)
    (db : Db) (row : SessionRow) (field : Field) (v : Jv)
    (hdb : db.session = some row)
    (hcmd1 : jsToLower (jsTrim t) ≠ "restart")
    (hcmd2 : jsToLower (jsTrim t) ≠ "back")
    (hask : (parseState row.answers_json).__refs.length < max 1 form.targetCount)
    (hfield : form.fields.get? row.field_index = some field)
    (hfile : field.type ≠ .file)
    (hval : validate field t = .ok v)
    (hge : form.fields.length ≤ row.field_index + 1) :
    handleUserMessage form ack t db =
      (if ((parseState row.answers_json).__refs ++
            [Jv.obj (setKey (parseState row.answers_json).__draft field.id v)]).length <
          form.targetCount then
        (withAck ack
          (responseFromState form
            ⟨(parseState row.answers_json).__refs ++
              [.obj (setKey (parseState row.answers_json).__draft field.id v)], []⟩ 0)
          (some ⟨(parseState row.answers_json).__refs ++
              [.obj (setKey (parseState row.answers_json).__draft field.id v)], []⟩),
         saveState db 0
           ⟨(parseState row.answers_json).__refs ++
             [.obj (setKey (parseState row.answers_json).__draft field.id v)], []⟩ .in_progress)
      else
        (responseFromState form
          ⟨(parseState row.answers_json).__refs ++
            [.obj (setKey (parseState row.answers_json).__draft field.id v)], []⟩ 0,
         saveState db 0
           ⟨(parseState row.answers_json).__refs ++
             [.obj (setKey (parseState row.answers_json).__draft field.id v)], []⟩ .in_progress)) := by
  unfold handleUserMessage
  rw [upsertSession_of_some db row hdb]
  simp only [progressFor]
  rw [if_neg hcmd1, if_neg hcmd2, if_neg (by exact Nat.not_le.mpr hask), hfield]
  dsimp only
  rw [if_neg hfile, hval]
  dsimp only
  rw [if_pos hge]

/-- The `back` command routes to `goBackOne` on the untouched database. -/
lemma handleUserMessage_back_cmd (form : FormDef) (ack : String) (db : Db) (row : SessionRow)
    (hdb : db.session = some row) :
    handleUserMessage form ack "back" db = goBackOne form db := by
  unfold handleUserMessage
  rw [upsertSession_of_some db row hdb]
  dsimp only
  rw [if_neg (show jsToLower (jsTrim "back") ≠ "restart" by decide),
      if_pos (show jsToLower (jsTrim "back") = "back" from rfl)]

/-- `goBackOne` in ASK with a positive cursor deletes the previous
field's draft entry and decrements the cursor. -/
lemma goBackOne_within (form : FormDef) (db : Db) (row : SessionRow) (field : Field)
    (hdb : db.session = some row)
    (hask : (parseState row.answers_json).__refs.length < max 1 form.targetCount)
    (hpos : 0 < row.field_index)
    (hfield : form.fields.get? (row.field_index - 1) = some field) :
    goBackOne form db =
      (responseFromState form
        ⟨(parseState row.answers_json).__refs,
         delKey (parseState row.answers_json).__draft field.id⟩
        (row.field_index - 1),
       saveState db (row.field_index - 1)
        ⟨(parseState row.answers_json).__refs,
         delKey (parseState row.answers_json).__draft field.id⟩
        .in_progress) := by
  unfold goBackOne getSessionRow
  rw [hdb]
  dsimp only
  simp only [progressFor]
  rw [if_neg (Nat.not_le.mpr hask), if_pos hpos, hfield]

/-! ## Claim C8 — back is a left-inverse of answer within a record -/

/-- Claim C8: from an ASK state whose draft does not yet hold the current
field's key (true of every state the engine itself reaches) and whose
stored state serializes losslessly (no non-finite numbers — true of every
stored document, since JSON cannot encode them), a valid answer that
advances the cursor to `c+1 < fields.length` followed by `back` restores
the exact prior ASK state: the persisted row again holds cursor `c`,
status `in_progress`, and a document that parses to the original state
(the just-stored draft entry is removed, the rest untouched), and the
`back` response re-asks the same field. -/
theorem back_inverts_answer (form : FormDef) (ack1 ack2 t : String)
    (db : Db) (row : SessionRow) (field : Field) (v : Jv)
    (hdb : db.session = some row)
    (hstat : row.status = .in_progress)
    (hcmd1 : jsToLower (jsTrim t) ≠ "restart")
    (hcmd2 : jsToLower (jsTrim t) ≠ "back")
    (hask : (parseState row.answers_json).__refs.length < max 1 form.targetCount)
    (hfield : form.fields.get? row.field_index = some field)
    (hfile : field.type ≠ .file)
    (hval : validate field t = .ok v)
    (hlt : row.field_index + 1 < form.fields.length)
    (hkey : getKey (parseState row.answers_json).__draft field.id = none)
    (hfin1 : jnormList (parseState row.answers_json).__refs = (parseState row.answers_json).__refs)
    (hfin2 : jnormEntries (parseState row.answers_json).__draft =
      (parseState row.answers_json).__draft) :
    handleUserMessage form ack2 "back" (handleUserMessage form ack1 t db).2 =
      (responseFromState form (parseState row.answers_json) row.field_index,
       saveState db row.field_index (parseState row.answers_json) .in_progress) ∧
    parseState (some (stateToJv (parseState row.answers_json))) = parseState row.answers_json := by
  have heta : (⟨(parseState row.answers_json).__refs, (parseState row.answers_json).__draft⟩ :
      EngineState) = parseState row.answers_json := rfl
  have hroundtrip : parseState (some (stateToJv (parseState row.answers_json))) =
      parseState row.answers_json := by
    rw [parseState_stateToJv, hfin1, hfin2]
  refine ⟨?_, hroundtrip⟩
  have hs1 := handleUserMessage_answer_advance form ack1 t db row field v hdb hcmd1 hcmd2
    hask hfield hfile hval hlt
  rw [hs1]
  dsimp only
  have hback := handleUserMessage_back_cmd form ack2
    (saveState db (row.field_index + 1)
      ⟨(parseState row.answers_json).__refs,
       setKey (parseState row.answers_json).__draft field.id v⟩ .in_progress)
    ⟨row.field_index + 1,
     some (stateToJv ⟨(parseState row.answers_json).__refs,
       setKey (parseState row.answers_json).__draft field.id v⟩), .in_progress⟩ rfl
  rw [hback]
  have hask1 : (parseState (some (stateToJv
      (⟨(parseState row.answers_json).__refs,
        setKey (parseState row.answers_json).__draft field.id v⟩ : EngineState)))).__refs.length <
      max 1 form.targetCount := by
    rw [parseState_stateToJv]
    simpa [jnormList_length] using hask
  have hgo := goBackOne_within form
    (saveState db (row.field_index + 1)
      ⟨(parseState row.answers_json).__refs,
       setKey (parseState row.answers_json).__draft field.id v⟩ .in_progress)
    ⟨row.field_index + 1,
     some (stateToJv ⟨(parseState row.answers_json).__refs,
       setKey (parseState row.answers_json).__draft field.id v⟩), .in_progress⟩ field
    rfl hask1 (Nat.succ_pos _) (by simpa [Nat.add_sub_cancel] using hfield)
  rw [hgo]
  rw [parseState_stateToJv]
  dsimp only
  rw [jnormEntries_setKey, delKey_setKey, hfin1, hfin2,
    delKey_of_getKey_none _ _ hkey, Nat.add_sub_cancel, heta]
  rfl

/-- Witness for `back_inverts_answer`: answering the first field of the
two-field `pairForm` with `"Ann"` and then sending `back` restores the
fresh empty state at cursor 0. -/
theorem back_inverts_answer_witness :
    (0 : Nat) + 1 < pairForm.fields.length ∧
    validate nameField "Ann" = .ok (.str "Ann") ∧
    (handleUserMessage pairForm "Nice." "back"
        (handleUserMessage pairForm "Got it." "Ann" freshRowDb).2 =
      (responseFromState pairForm (parseState (some (.obj []))) 0,
       saveState freshRowDb 0 (parseState (some (.obj []))) .in_progress) ∧
     parseState (some (stateToJv (parseState (some (.obj []))))) = parseState (some (.obj []))) :=
  ⟨by decide, rfl,
    back_inverts_answer pairForm "Got it." "Nice." "Ann" freshRowDb
      ⟨0, some (.obj []), .in_progress⟩ nameField (.str "Ann")
      rfl rfl (by decide) (by decide) (by decide) rfl (by decide) rfl
      (by decide) rfl rfl rfl⟩

/-! ## Claim C7 — a full run of valid answers reaches REVIEW -/

/-- `runChat` on a single final turn. -/
lemma runChat_single (form : FormDef) (ack : String) (db : Db) (t : String) :
    runChat form ack db [t] =
      (some (handleUserMessage form ack t db).1, (handleUserMessage form ack t db).2) := rfl

/-- `runChat` steps through the first of two or more turns. -/
lemma runChat_cons_cons (form : FormDef) (ack : String) (db : Db) (t t2 : String)
    (ts : List String) :
    runChat form ack db (t :: t2 :: ts) =
      runChat form ack (handleUserMessage form ack t db).2 (t2 :: ts) := rfl

/-- Invariant run lemma for claim C7: from a session at overall answer
count `k` (cursor `k % F`, `k / F` committed references), feeding the
remaining `N*F - k` valid, non-command answers — each valid for the field
that is current at its turn — ends in a REVIEW response carrying exactly
`targetCount` committed references and an empty draft. -/
lemma runChat_answers_review (form : FormDef) (ack : String)
    (hF : 0 < form.fields.length) (hN : 0 < form.targetCount) :
    ∀ (ts : List String) (k : Nat) (db : Db) (row : SessionRow),
      ts ≠ [] →
      k + ts.length = form.targetCount * form.fields.length →
      db.session = some row →
      row.field_index = k % form.fields.length →
      (parseState row.answers_json).__refs.length = k / form.fields.length →
      (∀ j (hj : j < ts.length) (field : Field),
        form.fields.get? ((k + j) % form.fields.length) = some field →
        field.type ≠ .file ∧
        jsToLower (jsTrim (ts.get ⟨j, hj⟩)) ≠ "restart" ∧
        jsToLower (jsTrim (ts.get ⟨j, hj⟩)) ≠ "back" ∧
        ∃ v, validate field (ts.get ⟨j, hj⟩) = .ok v) →
      (match (runChat form ack db ts).1 with
      | some (.review st _ refs _ _ _) =>
          st.__refs.length = form.targetCount ∧ st.__draft = [] ∧ refs = st.__refs
      | _ => False) := by
  intro ts
  induction ts with
  | nil => intro k db row hne; exact absurd rfl hne
  | cons t ts ih =>
    intro k db row _ hlen hdb hidx hrefs hvalid
    have hiF : k % form.fields.length < form.fields.length := Nat.mod_lt _ hF
    have hkNF : k < form.targetCount * form.fields.length := by
      have := hlen; simp only [List.length_cons] at this; omega
    have hcN : k / form.fields.length < form.targetCount :=
      (Nat.div_lt_iff_lt_mul hF).mpr hkNF
    have hmax : max 1 form.targetCount = form.targetCount := max_eq_right hN
    have hask : (parseState row.answers_json).__refs.length < max 1 form.targetCount := by
      rw [hmax, hrefs]; exact hcN
    have hfget : form.fields.get? (k % form.fields.length) =
        some (form.fields.get ⟨k % form.fields.length, hiF⟩) := List.get?_eq_get hiF
    obtain ⟨hfile, hc1, hc2, v, hval⟩ :=
      hvalid 0 (by simp) (form.fields.get ⟨k % form.fields.length, hiF⟩)
        (by simpa using hfget)
    by_cases hadv : k % form.fields.length + 1 < form.fields.length
    · -- the answer advances the cursor within the record
      have hmod : (k + 1) % form.fields.length = k % form.fields.length + 1 := by
        conv_lhs => rw [← Nat.div_add_mod k form.fields.length, Nat.add_assoc, Nat.add_comm]
        rw [Nat.add_mul_mod_self_left]
        exact Nat.mod_eq_of_lt hadv
      have hdiv : (k + 1) / form.fields.length = k / form.fields.length := by
        conv_lhs => rw [← Nat.div_add_mod k form.fields.length, Nat.add_assoc]
        rw [Nat.mul_add_div hF, Nat.div_eq_of_lt hadv, Nat.add_zero]
      have hstep := handleUserMessage_answer_advance form ack t db row
        (form.fields.get ⟨k % form.fields.length, hiF⟩) v hdb hc1 hc2 hask
        (by rw [hidx]; exact hfget) hfile hval (by rw [hidx]; exact hadv)
      cases ts with
      | nil =>
        exfalso
        have h1 : k + 1 = form.targetCount * form.fields.length := by simpa using hlen
        have h2 := hmod
        rw [h1, Nat.mul_mod_left] at h2
        omega
      | cons t2 ts2 =>
        rw [runChat_cons_cons, hstep]
        dsimp only
        refine ih (k + 1)
          (saveState db (row.field_index + 1)
            ⟨(parseState row.answers_json).__refs,
             setKey (parseState row.answers_json).__draft
               (form.fields.get ⟨k % form.fields.length, hiF⟩).id v⟩ .in_progress)
          ⟨row.field_index + 1,
           some (stateToJv ⟨(parseState row.answers_json).__refs,
             setKey (parseState row.answers_json).__draft
               (form.fields.get ⟨k % form.fields.length, hiF⟩).id v⟩), .in_progress⟩
          (by simp) (by have := hlen; simp only [List.length_cons] at this ⊢; omega) rfl
          (by rw [hmod, hidx]) ?_ ?_
        · rw [parseState_stateToJv]
          dsimp only
          rw [jnormList_length, hrefs, hdiv]
        · intro j hj field hf
          have h := hvalid (j + 1) (by simp only [List.length_cons] at hj ⊢; omega) field
            (by rw [show k + (j + 1) = k + 1 + j by omega]; exact hf)
          exact h
    · -- the answer completes the record and commits it
      have hi1 : k % form.fields.length + 1 = form.fields.length := by omega
      have hge : form.fields.length ≤ row.field_index + 1 := by rw [hidx]; omega
      have hk1 : k + 1 = form.fields.length * (k / form.fields.length + 1) := by
        conv_lhs => rw [← Nat.div_add_mod k form.fields.length, Nat.add_assoc, hi1]
        rw [Nat.mul_succ]
      have hmod0 : (k + 1) % form.fields.length = 0 := by
        rw [hk1]; exact Nat.mul_mod_right _ _
      have hdiv1 : (k + 1) / form.fields.length = k / form.fields.length + 1 := by
        rw [hk1]; exact Nat.mul_div_cancel_left _ hF
      have hstep := handleUserMessage_answer_commit form ack t db row
        (form.fields.get ⟨k % form.fields.length, hiF⟩) v hdb hc1 hc2 hask
        (by rw [hidx]; exact hfget) hfile hval hge
      have hlen2 : ((parseState row.answers_json).__refs ++
          [Jv.obj (setKey (parseState row.answers_json).__draft
            (form.fields.get ⟨k % form.fields.length, hiF⟩).id v)]).length =
          k / form.fields.length + 1 := by
        simp [hrefs]
      cases ts with
      | nil =>
        have hfin : k + 1 = form.targetCount * form.fields.length := by simpa using hlen
        have hNeq : k / form.fields.length + 1 = form.targetCount := by
          rw [← hdiv1, hfin, Nat.mul_div_cancel _ hF]
        rw [runChat_single, hstep]
        rw [if_neg (by rw [hlen2, hNeq]; exact lt_irrefl _)]
        dsimp only
        unfold responseFromState
        rw [if_pos (by rw [hlen2, hNeq, hmax])]
        dsimp only
        exact ⟨by rw [hlen2, hNeq], rfl, rfl⟩
      | cons t2 ts2 =>
        have hk1N : k + 1 < form.targetCount * form.fields.length := by
          have := hlen; simp only [List.length_cons] at this; omega
        have hcond : k / form.fields.length + 1 < form.targetCount := by
          rw [← hdiv1]; exact (Nat.div_lt_iff_lt_mul hF).mpr hk1N
        rw [runChat_cons_cons, hstep]
        rw [if_pos (by rw [hlen2]; exact hcond)]
        dsimp only
        refine ih (k + 1)
          (saveState db 0
            ⟨(parseState row.answers_json).__refs ++
              [Jv.obj (setKey (parseState row.answers_json).__draft
                (form.fields.get ⟨k % form.fields.length, hiF⟩).id v)], []⟩ .in_progress)
          ⟨0,
           some (stateToJv ⟨(parseState row.answers_json).__refs ++
             [Jv.obj (setKey (parseState row.answers_json).__draft
               (form.fields.get ⟨k % form.fields.length, hiF⟩).id v)], []⟩), .in_progress⟩
          (by simp) (by have := hlen; simp only [List.length_cons] at this ⊢; omega) rfl
          (by rw [hmod0]) ?_ ?_
        · rw [parseState_stateToJv]
          dsimp only
          rw [jnormList_length, hlen2, hdiv1]
        · intro j hj field hf
          exact hvalid (j + 1) (by simp only [List.length_cons] at hj ⊢; omega) field
            (by rw [show k + (j + 1) = k + 1 + j by omega]; exact hf)

/-- The first turn creates the session row, so a fresh database behaves
like one whose session row was just created. -/
lemma handleUserMessage_fresh (form : FormDef) (ack t : String) (subs : List Jv) :
    handleUserMessage form ack t ⟨none, subs⟩ =
      handleUserMessage form ack t ⟨some ⟨0, some (.obj []), .in_progress⟩, subs⟩ := rfl

/-- Claim C7: for every schema with `targetRecordCount = N ≥ 1` and
`F ≥ 1` fields, starting from a fresh session and answering exactly
`N*F` times — each turn a non-command text that validates against the
field current at that turn (hence non-file fields) — the final
`handleUserMessage` response is REVIEW with exactly `N` committed
records, an empty draft, and the committed records as payload. -/
theorem full_answer_run_reaches_review (form : FormDef) (ack : String) (texts : List String)
    (hF : 0 < form.fields.length)
    (hN : 0 < form.targetCount)
    (hlen : texts.length = form.targetCount * form.fields.length)
    (hvalid : ∀ k (hk : k < texts.length) (field : Field),
      form.fields.get? (k % form.fields.length) = some field →
      field.type ≠ .file ∧
      jsToLower (jsTrim (texts.get ⟨k, hk⟩)) ≠ "restart" ∧
      jsToLower (jsTrim (texts.get ⟨k, hk⟩)) ≠ "back" ∧
      ∃ v, validate field (texts.get ⟨k, hk⟩) = .ok v) :
    match (runChat form ack ⟨none, []⟩ texts).1 with
    | some (.review st _ refs _ _ _) =>
        st.__refs.length = form.targetCount ∧ st.__draft = [] ∧ refs = st.__refs
    | _ => False := by
  have hpos : 0 < form.targetCount * form.fields.length := Nat.mul_pos hN hF
  cases texts with
  | nil =>
    exfalso
    simp only [List.length_nil] at hlen
    omega
  | cons t ts =>
    have hswap : runChat form ack ⟨none, []⟩ (t :: ts) =
        runChat form ack ⟨some ⟨0, some (.obj []), .in_progress⟩, []⟩ (t :: ts) := by
      cases ts with
      | nil => rw [runChat_single, runChat_single, handleUserMessage_fresh]
      | cons t2 ts2 => rw [runChat_cons_cons, runChat_cons_cons, handleUserMessage_fresh]
    rw [hswap]
    exact runChat_answers_review form ack hF hN (t :: ts) 0 _
      ⟨0, some (.obj []), .in_progress⟩ (by simp) (by simpa using hlen) rfl
      (by simp) (by rw [Nat.zero_div]; rfl) (by simpa using hvalid)

/-- Witness for `full_answer_run_reaches_review`: the two-field,
one-record `pairForm` answered with `"Ann"` then `"Paris"` ends in
REVIEW with one committed record and an empty draft. -/
theorem full_answer_run_reaches_review_witness :
    0 < pairForm.fields.length ∧ 0 < pairForm.targetCount ∧
    ["Ann", "Paris"].length = pairForm.targetCount * pairForm.fields.length ∧
    (match (runChat pairForm "Nice." ⟨none, []⟩ ["Ann", "Paris"]).1 with
      | some (.review st _ refs _ _ _) =>
          st.__refs.length = pairForm.targetCount ∧ st.__draft = [] ∧ refs = st.__refs
      | _ => False) :=
  ⟨by decide, by decide, rfl,
    full_answer_run_reaches_review pairForm "Nice." ["Ann", "Paris"] (by decide) (by decide) rfl
      (by
        intro k hk field hf
        simp only [List.length_cons, List.length_nil] at hk
        interval_cases k
        · rw [show pairForm.fields.get? (0 % pairForm.fields.length) = some nameField
              from rfl] at hf
          injection hf with hf2
          subst hf2
          exact ⟨by decide, show jsToLower (jsTrim "Ann") ≠ "restart" by decide,
            show jsToLower (jsTrim "Ann") ≠ "back" by decide, ⟨Jv.str "Ann", rfl⟩⟩
        · rw [show pairForm.fields.get? (1 % pairForm.fields.length) = some cityField
              from rfl] at hf
          injection hf with hf2
          subst hf2
          exact ⟨by decide, show jsToLower (jsTrim "Paris") ≠ "restart" by decide,
            show jsToLower (jsTrim "Paris") ≠ "back" by decide, ⟨Jv.str "Paris", rfl⟩⟩)⟩

/-! ## The `part_006` validator versus the live one

Concrete evaluations documenting that the behaviour claims C3, C4 and C5
describe is implemented verbatim by the earlier engine revision
(`src/unnamed/part_006`) and was lost in the live `src/lib/engine.ts`. -/

/-- The earlier revision resolves the 1-based index `"2"`, the case
variant `"b"` and the exact label `"B"` to the identical canonical option
`"B"`, and its no-match error enumerates the options — exactly the
behaviour claim C3 describes, rejected by the live validator. -/
theorem engineV0_choice_resolution :
    EngineV0.validate roleField "2" = .ok (.str "B") ∧
    EngineV0.validate roleField "b" = .ok (.str "B") ∧
    EngineV0.validate roleField "B" = .ok (.str "B") ∧
    EngineV0.validate roleField "C" = .err "Pick one of: A, B." :=
  ⟨rfl, rfl, rfl, rfl⟩

/-- The earlier revision stores the canonical `YYYY-MM-DD` form for the
same input the live validator stores raw (claim C4's intent). -/
theorem engineV0_date_normalizes :
    EngineV0.validate whenField "2020-01-05T10:30Z" = .ok (.str "2020-01-05") := rfl

/-- The earlier revision rejects non-finite parses and enforces the
declared bounds, naming the violated bound (claim C5's behaviour). -/
theorem engineV0_number_bounds :
    EngineV0.validate ageField "5" = .err "Please enter a number ≥ 18." ∧
    EngineV0.validate ageField "150" = .err "Please enter a number ≤ 99." ∧
    EngineV0.validate ageField "Infinity" = .err "Can you enter a number?" ∧
    EngineV0.validate ageField "42" = .ok (.num (.fin 42)) :=
  ⟨rfl, rfl, rfl, rfl⟩

end Form2Chat
